import Mathlib

/-!
Verification development for the catalog-discovery crawler
(`tools/scrape_catalog.py`).  The crawler's pure logic is shallowly
embedded below: text is modelled as `List Char`, network responses are
supplied by oracle functions (the server's behaviour is an input of each
definition), and Python exceptions are modelled with `Except`.  The
regex-driven pieces of the source (`/idea/(\d+)/` identifier extraction,
the currency-price scanner, substring and word-boundary keyword tests)
are implemented directly on character lists with the same left-to-right,
leftmost-match semantics the Python `re` module gives on these patterns.

Layers abstracted, stated once here: a fetched HTML document is
represented by exactly the data the source extracts from it (the list of
`href` values the link regex can see, the optional rotated ViewState, the
open-graph fields, the price text nodes); wall-clock sleeping is recorded
as the number of time units slept rather than performed.
-/

abbrev Chars := List Char

instance exceptDecEq {ε α : Type} [DecidableEq ε] [DecidableEq α] :
    DecidableEq (Except ε α) := fun x y =>
  match x, y with
  | .ok a, .ok b =>
    if h : a = b then isTrue (by rw [h])
    else isFalse (fun hh => h (by injection hh))
  | .error e, .error f =>
    if h : e = f then isTrue (by rw [h])
    else isFalse (fun hh => h (by injection hh))
  | .ok _, .error _ => isFalse (fun hh => Except.noConfusion hh)
  | .error _, .ok _ => isFalse (fun hh => Except.noConfusion hh)

/-! ### Transport: `fetch_with_retry` (scrape_catalog.py lines 85-108)

One attempt either raises `requests.RequestException` or returns a
response with a status code and a body.  The source loops
`for attempt in range(retries)`: a 200 response is returned, any other
status is printed and `None` is returned immediately, and an exception
sleeps `2 ** attempt` seconds and moves to the next attempt. -/

inductive AttemptResult where
  | response (status : Nat) (text : Chars)
  | exception
  deriving DecidableEq

/-- Observable trace of one `fetch_with_retry` call: the returned value
(`None` or the 200 response), how many attempts were issued, the list of
sleeps performed between attempts (in seconds, in order), and the list of
non-200 statuses printed. -/
structure FetchTrace where
  result : Option (Nat × Chars)
  attempts : Nat
  waits : List Nat
  statusLog : List Nat
  deriving DecidableEq

/-- The retry loop of `fetch_with_retry`, recursing over the remaining
iterations of `range(retries)`; `a` is the current value of `attempt`. -/
def fetchAux (o : Nat → AttemptResult) (a : Nat) : Nat → FetchTrace
  | 0 => { result := none, attempts := 0, waits := [], statusLog := [] }
  | n + 1 =>
    match o a with
    | .response s text =>
        if s = 200 then
          { result := some (s, text), attempts := 1, waits := [], statusLog := [] }
        else
          { result := none, attempts := 1, waits := [], statusLog := [s] }
    | .exception =>
        let rest := fetchAux o (a + 1) n
        { result := rest.result, attempts := rest.attempts + 1,
          waits := 2 ^ a :: rest.waits, statusLog := rest.statusLog }

/-- fetch_with_retry(session, url, ..., retries): the outcome of attempt
number `k` (0-based) is `o k`. -/
def fetch_with_retry (o : Nat → AttemptResult) (retries : Nat) : FetchTrace :=
  fetchAux o 0 retries

/-- Number of leading attempts, among the first `n` starting at index `a`,
whose outcome is an exception (these are exactly the attempts followed by a
backoff sleep). -/
def leadExc (o : Nat → AttemptResult) (a : Nat) : Nat → Nat
  | 0 => 0
  | n + 1 =>
    match o a with
    | .exception => leadExc o (a + 1) n + 1
    | _ => 0

/-! ### Identifier extraction: `extract_idea_id` (lines 111-113)

The pattern `/idea/(\d+)/` is scanned left to right; at each position a
match needs the literal `/idea/`, then a maximal nonempty digit run,
then a slash (the greedy `\d+` can only succeed with the maximal run,
since any shorter run is followed by a digit, not by a slash). -/

def BASE_URL : Chars := "https://www.estropical.com".toList

/-- Attempt to match `/idea/(\d+)/` at the start of `l`, returning the
captured digit group. -/
def ideaMatchAt (l : Chars) : Option Chars :=
  if l.take 6 = "/idea/".toList then
    let rest := l.drop 6
    let ds := rest.takeWhile Char.isDigit
    if ds = [] then none
    else if (rest.drop ds.length).head? = some '/' then some ds
    else none
  else none

/-- Leftmost match of `/idea/(\d+)/`: try each position in turn. -/
def eiiAux : Chars → Option Chars
  | [] => none
  | c :: rest =>
    match ideaMatchAt (c :: rest) with
    | some ds => some ds
    | none => eiiAux rest

/-- extract_idea_id(url): first `/idea/(\d+)/` group in the URL, if any. -/
def extract_idea_id (url : Chars) : Option Chars := eiiAux url

/-! ### Region inference (lines 57-75, 123-128) -/

/-- Python substring containment `needle in hay`. -/
def isSubstr : Chars → Chars → Bool
  | needle, [] => needle.isEmpty
  | needle, c :: rest => needle.isPrefixOf (c :: rest) || isSubstr needle rest

/-- REGION_KEYWORDS, in the exact order listed in the source. -/
def REGION_KEYWORDS : List (Chars × Chars) := [
  ("cancun".toList, "Caribe".toList), ("cancún".toList, "Caribe".toList),
  ("punta-cana".toList, "Caribe".toList), ("punta cana".toList, "Caribe".toList),
  ("caribe".toList, "Caribe".toList),
  ("miami".toList, "Norteamérica".toList), ("nueva-york".toList, "Norteamérica".toList),
  ("nueva york".toList, "Norteamérica".toList), ("new york".toList, "Norteamérica".toList),
  ("orlando".toList, "Norteamérica".toList), ("washington".toList, "Norteamérica".toList),
  ("estados-unidos".toList, "Norteamérica".toList), ("estados unidos".toList, "Norteamérica".toList),
  ("madrid".toList, "Europa".toList), ("barcelona".toList, "Europa".toList),
  ("paris".toList, "Europa".toList), ("europa".toList, "Europa".toList),
  ("buenos-aires".toList, "Sudamérica".toList), ("buenos aires".toList, "Sudamérica".toList),
  ("sao-paulo".toList, "Sudamérica".toList), ("são paulo".toList, "Sudamérica".toList),
  ("rio-de-janeiro".toList, "Sudamérica".toList), ("santiago".toList, "Sudamérica".toList),
  ("lima".toList, "Sudamérica".toList), ("bogota".toList, "Sudamérica".toList),
  ("bogotá".toList, "Sudamérica".toList),
  ("cartagena".toList, "Sudamérica".toList), ("asuncion".toList, "Sudamérica".toList),
  ("asunción".toList, "Sudamérica".toList),
  ("tailandia".toList, "Asia".toList), ("bangkok".toList, "Asia".toList),
  ("vietnam".toList, "Asia".toList),
  ("laos".toList, "Asia".toList), ("japon".toList, "Asia".toList),
  ("japón".toList, "Asia".toList),
  ("tokio".toList, "Asia".toList), ("tokyo".toList, "Asia".toList),
  ("dubai".toList, "Asia".toList), ("corea".toList, "Asia".toList),
  ("panama".toList, "Centroamérica".toList), ("méxico".toList, "Centroamérica".toList),
  ("mexico".toList, "Centroamérica".toList)]

/-- The keyword loop of infer_region: first entry whose keyword occurs in
the (already lowercased) text wins; otherwise the default. -/
def infer_region_with : List (Chars × Chars) → Chars → Chars
  | [], _ => "Internacional".toList
  | (keyword, region) :: rest, lower =>
    if isSubstr keyword lower then region else infer_region_with rest lower

/-- infer_region(text) (ASCII lowercasing stands in for Python str.lower). -/
def infer_region (text : Chars) : Chars :=
  infer_region_with REGION_KEYWORDS (text.map Char.toLower)

/-! ### Product-type inference (lines 131-137): word-boundary keyword
search, the boolean outcome of the two alternation regexes. -/

def isWordChar (c : Char) : Bool := c.isAlphanum || c == '_'

/-- Match of a word-bounded keyword at one position: the keyword is a
prefix here, the previous character (if any) is not a word character, and
neither is the character right after the keyword. -/
def wordAt (kw : Chars) (prev : Option Char) (l : Chars) : Bool :=
  kw.isPrefixOf l &&
    (match prev with | some c => !isWordChar c | none => true) &&
    (match (l.drop kw.length).head? with | some c => !isWordChar c | none => true)

def hasWordAux (kw : Chars) : Option Char → Chars → Bool
  | prev, [] => wordAt kw prev []
  | prev, c :: rest => wordAt kw prev (c :: rest) || hasWordAux kw (some c) rest

/-- Whether `\bkw\b` matches anywhere in `text`. -/
def hasWord (text kw : Chars) : Bool := hasWordAux kw none text

def FLIGHT_KEYWORDS : List Chars :=
  ["boleto".toList, "vuelo".toList, "ticket".toList, "flight".toList, "airfare".toList]

def HOTEL_KEYWORDS : List Chars :=
  ["hotel".toList, "resort".toList, "inn".toList, "lodge".toList,
   "palace".toList, "suites".toList, "apartment".toList]

/-- infer_product_type(slug, title) (lines 131-137). -/
def infer_product_type (slug title : Chars) : Chars :=
  let combined := (slug ++ ' ' :: title).map Char.toLower
  if FLIGHT_KEYWORDS.any (fun kw => hasWord combined kw) then "Vuelo".toList
  else if HOTEL_KEYWORDS.any (fun kw => hasWord combined kw) then "Hotel".toList
  else "Paquete".toList

/-! ### Price parsing: `parse_price` (lines 116-120)

The pattern is `[\$US]+\s*([0-9][0-9,\.]+)`.  The character-class run is
greedy and backtracking it cannot help (a shorter run leaves a class
character, not whitespace or a digit, at the cursor), so the greedy scan
below has exactly the `re.search` semantics.  Python's `float` call on
the captured group raises ValueError when the group keeps two dots after
comma removal; that uncaught exception is modelled as `Except.error`. -/

def isPriceClass (c : Char) : Bool := c == '$' || c == 'U' || c == 'S'

def isNumTail (c : Char) : Bool := c.isDigit || c == ',' || c == '.'

/-- Match the price pattern at the start of `l`, returning the captured
numeric group. -/
def priceMatchAt (l : Chars) : Option Chars :=
  let cur := l.takeWhile isPriceClass
  if cur = [] then none
  else
    match (l.drop cur.length).dropWhile Char.isWhitespace with
    | [] => none
    | d :: rest =>
      if d.isDigit then
        let tl := rest.takeWhile isNumTail
        if tl = [] then none else some (d :: tl)
      else none

/-- Leftmost match of the price pattern. -/
def priceScan : Chars → Option Chars
  | [] => none
  | c :: rest =>
    match priceMatchAt (c :: rest) with
    | some g => some g
    | none => priceScan rest

def digitsToNat (l : Chars) : Nat := l.foldl (fun n c => n * 10 + (c.toNat - 48)) 0

/-- Exact decimal value `mant / 10 ^ scale`, the result of Python's
float() on the captured price group (the group is a decimal numeral, so
its value is represented exactly). -/
structure DecVal where
  mant : Nat
  scale : Nat
  deriving DecidableEq

def DecVal.toRat (d : DecVal) : ℚ := (d.mant : ℚ) / (10 : ℚ) ^ d.scale

/-- The comparison `p > 50` of the source, on the exact decimal value. -/
def DecVal.gt50 (d : DecVal) : Bool := 50 * 10 ^ d.scale < d.mant

/-- Python float() on a digits-and-dots string (the captured group after
commas are removed): integer part, optional single fractional part; a
second dot raises ValueError, modelled as `none`. -/
def floatOfDigits (l : Chars) : Option DecVal :=
  let intPart := l.takeWhile (fun c => !(c == '.'))
  match l.drop intPart.length with
  | [] => some { mant := digitsToNat intPart, scale := 0 }
  | _ :: frac =>
    if frac.contains '.' then none
    else some { mant := digitsToNat (intPart ++ frac), scale := frac.length }

/-- parse_price(text): value of the first currency-prefixed numeric
pattern, `none` when the pattern does not occur, error when the matched
group is not a parseable number. -/
def parse_price (text : Chars) : Except Unit (Option DecVal) :=
  match priceScan text with
  | none => .ok none
  | some g =>
    match floatOfDigits (g.filter (fun c => !(c == ','))) with
    | some q => .ok (some q)
    | none => .error ()

/-- The price loop of scrape_idea_page (lines 249-254): walk the matching
text nodes in document order and keep the first parsed value strictly
above the sanity floor 50 (Python's `if p and p > 50`; a value above 50
is automatically truthy). -/
def extractPrice : List Chars → Except Unit (Option DecVal)
  | [] => .ok none
  | t :: rest =>
    match parse_price t with
    | .error e => .error e
    | .ok (some p) => if p.gt50 then .ok (some p) else extractPrice rest
    | .ok none => extractPrice rest

/-! ### URL slug (line 256): `url.rstrip("/").split("/")[-1]` -/

def rstripSlash (s : Chars) : Chars := (s.reverse.dropWhile (fun c => c == '/')).reverse

def lastSegment (s : Chars) : Chars := (s.reverse.takeWhile (fun c => !(c == '/'))).reverse

def urlSlug (url : Chars) : Chars := lastSegment (rstripSlash url)

/-! ### Item extraction: `scrape_idea_page` (lines 233-269)

A fetched idea page is represented by the data the source reads from it:
the open-graph title/description/image (empty when the tag is missing or
empty, matching the `or` chains over falsy values), the stripped document
title (empty when there is no title element), and the text nodes matching
the Desde/From filter regex, in document order.  The page fetch itself is
an oracle `Chars → Option IdeaPage`: `none` is a fetch that failed after
retries. -/

structure IdeaPage where
  ogTitle : Chars
  ogDescription : Chars
  ogImage : Chars
  docTitle : Chars
  priceTexts : List Chars
  deriving DecidableEq

/-- Line 245: `og("title") or (soup.title.text.strip() if soup.title else "")`. -/
def scrapeTitle (pg : IdeaPage) : Chars :=
  if pg.ogTitle = [] then pg.docTitle else pg.ogTitle

/-- The dict returned by scrape_idea_page (without the id added later by
main); field `ptype` carries the source's "type" key. -/
structure IdeaData where
  title : Chars
  description : Chars
  image_link : Chars
  price : Option DecVal
  link : Chars
  region : Chars
  slug : Chars
  ptype : Chars
  deriving DecidableEq

/-- Lines 245-269: build the returned dict from a successfully fetched
page.  An unparseable price group propagates as an error (an uncaught
Python exception). -/
def buildData (url : Chars) (pg : IdeaPage) : Except Unit IdeaData :=
  match extractPrice pg.priceTexts with
  | .error e => .error e
  | .ok price =>
    let title := scrapeTitle pg
    let slug := urlSlug url
    .ok { title := title.take 150,
          description := if pg.ogDescription = [] then title
                         else pg.ogDescription.take 1000,
          image_link := pg.ogImage,
          price := price,
          link := url,
          region := infer_region (slug ++ ' ' :: title),
          slug := slug,
          ptype := infer_product_type slug title }

/-- scrape_idea_page(session, url): `none` when the fetch failed. -/
def scrape_idea_page (oracle : Chars → Option IdeaPage) (url : Chars) :
    Except Unit (Option IdeaData) :=
  match oracle url with
  | none => .ok none
  | some pg => (buildData url pg).map some

/-! ### Discovery: `discover_idea_urls` (lines 141-229)

A pagination response is represented by the href values its markup
exposes to the link regex and the optional rotated ViewState.  The
initial GET is `init` (`none` is a failed bootstrap fetch; a `token` of
`none` means no ViewState input on the page); the AJAX POST for round
`k` (offset `ROWS_PER_PAGE * (k + 1)`) is `ajax k`, with `none` a fetch
that failed after retries. -/

structure PageData where
  hrefs : List Chars
  token : Option Chars
  deriving DecidableEq

/-- Seen-set and accumulated URLs of the collect_links closure.  The
seen-set is modelled as the list of ids in insertion order (membership is
all that is used of the Python set). -/
structure LinkState where
  seen_ids : List Chars
  idea_urls : List Chars
  deriving DecidableEq

/-- Body of the collect_links loop (lines 163-171): accept an href only
if it yields a (nonempty) identifier not yet seen, marking it seen at the
same moment; relative hrefs are absolutized with BASE_URL. -/
def collectOne (st : LinkState) (href : Chars) : LinkState :=
  match extract_idea_id href with
  | none => st
  | some idea_id =>
    if idea_id ≠ [] ∧ idea_id ∉ st.seen_ids then
      { seen_ids := idea_id :: st.seen_ids,
        idea_urls := st.idea_urls ++
          [if href.take 4 = "http".toList then href else BASE_URL ++ href] }
    else st

/-- collect_links(html): fold over the hrefs found in the response. -/
def collect_links (st : LinkState) (hrefs : List Chars) : LinkState :=
  hrefs.foldl collectOne st

/-- Line 207-213: the held ViewState after one AJAX round — overwritten
by an extracted token, kept when none is extractable. -/
def tokenStep (viewstate : Chars) (tok : Option Chars) : Chars :=
  match tok with
  | some t => t
  | none => viewstate

/-- State of the pagination loop.  `rounds` counts the AJAX rounds whose
response was received and processed; `fuelOut` records whether the
structural fuel below ran out while the loop still wanted to continue
(proved impossible for the fuel discover_idea_urls passes). -/
structure DiscState where
  viewstate : Chars
  links : LinkState
  rounds : Nat
  fuelOut : Bool
  deriving DecidableEq

/-- The `while len(idea_urls) < max_ideas` loop (lines 178-227): fetch
the next AJAX page (stop on failure), update the ViewState, collect
links, and stop when a round added nothing new. -/
def discoverLoop (ajax : Nat → Option PageData) (maxIdeas : Nat) :
    Nat → DiscState → DiscState
  | 0, st =>
    if st.links.idea_urls.length < maxIdeas then { st with fuelOut := true } else st
  | fuel + 1, st =>
    if st.links.idea_urls.length < maxIdeas then
      match ajax st.rounds with
      | none => st
      | some page =>
        if (collect_links st.links page.hrefs).idea_urls.length
            - st.links.idea_urls.length = 0 then
          { viewstate := tokenStep st.viewstate page.token,
            links := collect_links st.links page.hrefs,
            rounds := st.rounds + 1, fuelOut := st.fuelOut }
        else
          discoverLoop ajax maxIdeas fuel
            { viewstate := tokenStep st.viewstate page.token,
              links := collect_links st.links page.hrefs,
              rounds := st.rounds + 1, fuelOut := st.fuelOut }
    else st

inductive CrawlError where
  | bootstrap
  | noViewState
  | pyError
  deriving DecidableEq

/-- discover_idea_urls(session, max_ideas): bootstrap the first page,
take its ViewState (RuntimeError when absent), collect its links, run the
pagination loop, and return the first max_ideas URLs.  Fuel
`maxIdeas + 1` strictly dominates the loop's real measure. -/
def discover_idea_urls (init : Option PageData) (ajax : Nat → Option PageData)
    (maxIdeas : Nat) : Except CrawlError (List Chars × DiscState) :=
  match init with
  | none => .error .bootstrap
  | some page0 =>
    match page0.token with
    | none => .error .noViewState
    | some vs =>
      let st0 : DiscState :=
        { viewstate := vs,
          links := collect_links { seen_ids := [], idea_urls := [] } page0.hrefs,
          rounds := 0, fuelOut := false }
      let fin := discoverLoop ajax maxIdeas (maxIdeas + 1) st0
      .ok (fin.links.idea_urls.take maxIdeas, fin)

/-! ### Orchestrator: `main` (lines 273-324) -/

/-- One entry of the saved products list (lines 296-306). -/
structure Product where
  id : Chars
  ptype : Chars
  title : Chars
  description : Chars
  link : Chars
  image_link : Chars
  price : Option DecVal
  region : Chars
  slug : Chars
  deriving DecidableEq

def toProduct (idea_id : Chars) (d : IdeaData) : Product :=
  { id := idea_id, ptype := d.ptype, title := d.title,
    description := d.description, link := d.link,
    image_link := d.image_link, price := d.price,
    region := d.region, slug := d.slug }

/-- Result of the per-item loop: the products in scrape order, and the
number of "Skipped (no data)" log lines printed. -/
structure MainOut where
  products : List Product
  skipLogs : Nat
  deriving DecidableEq

/-- The per-item loop of main (lines 283-306): silently skip a URL with
no extractable id, log-and-skip a failed fetch, and append one product
per successful scrape.  A scrape that raises propagates the exception. -/
def mainLoop (oracle : Chars → Option IdeaPage) : List Chars → Except Unit MainOut
  | [] => .ok { products := [], skipLogs := 0 }
  | url :: rest =>
    match extract_idea_id url with
    | none => mainLoop oracle rest
    | some idea_id =>
      match scrape_idea_page oracle url with
      | .error e => .error e
      | .ok none =>
        (mainLoop oracle rest).map fun out =>
          { out with skipLogs := out.skipLogs + 1 }
      | .ok (some d) =>
        (mainLoop oracle rest).map fun out =>
          { out with products := toProduct idea_id d :: out.products }

structure CrawlOut where
  products : List Product
  skipLogs : Nat
  deriving DecidableEq

/-- main(): discovery then per-item extraction.  An uncaught exception in
a scrape aborts the whole run (pyError). -/
def crawl (init : Option PageData) (ajax : Nat → Option PageData)
    (oracle : Chars → Option IdeaPage) (maxIdeas : Nat) :
    Except CrawlError CrawlOut :=
  match discover_idea_urls init ajax maxIdeas with
  | .error e => .error e
  | .ok (idea_urls, _) =>
    match mainLoop oracle idea_urls with
    | .error _ => .error .pyError
    | .ok m => .ok { products := m.products, skipLogs := m.skipLogs }

/-- The numeric counters the finished run writes or prints as its summary
(lines 309-324): the saved "count" and the printed Vuelos / Hoteles /
Paquetes tallies. -/
def reportedCounts (out : CrawlOut) : List Nat :=
  [out.products.length,
   (out.products.filter (fun p => p.ptype == "Vuelo".toList)).length,
   (out.products.filter (fun p => p.ptype == "Hotel".toList)).length,
   (out.products.filter (fun p => p.ptype == "Paquete".toList)).length]

/-! ### Statement-level definitions -/

/-- Invariant of the collect_links state: the identifiers extracted from
the accumulated URLs are pairwise distinct, and every accumulated URL has
an identifier that is in the seen-set. -/
def LinkInv (st : LinkState) : Prop :=
  (st.idea_urls.filterMap extract_idea_id).Nodup ∧
  ∀ u ∈ st.idea_urls, ∃ i, extract_idea_id u = some i ∧ i ∈ st.seen_ids

/-- The ViewState tokens observable in rounds `a, a+1, ..., a+n-1`: the
extracted token of a received response, `none` for a failed fetch. -/
def roundTokens (ajax : Nat → Option PageData) (a n : Nat) : List (Option Chars) :=
  (List.range' a n).map (fun k =>
    match ajax k with
    | some pg => pg.token
    | none => none)

/-- Reading of the price rule in the specification's words: the first
text node whose (parsed) currency match strictly exceeds the floor 50. -/
def firstQualifyingPrice (texts : List Chars) : Option DecVal :=
  texts.findSome? (fun t =>
    match parse_price t with
    | .ok (some p) => if p.gt50 then some p else none
    | _ => none)

/-! ### Concrete scenario inputs used by witnesses and counterexamples -/

/-- An idea page with title T and nothing else. -/
def plainPage : IdeaPage :=
  { ogTitle := "T".toList, ogDescription := [], ogImage := [],
    docTitle := [], priceTexts := [] }

/-- A first listing page exposing five distinct idea links. -/
def fiveLinkPage : PageData :=
  { hrefs := ["/en/idea/101/a".toList, "/en/idea/102/a".toList,
              "/en/idea/103/a".toList, "/en/idea/104/a".toList,
              "/en/idea/105/a".toList],
    token := some ("VS0".toList) }

/-- A first listing page exposing ten distinct idea links. -/
def tenLinkPage : PageData :=
  { hrefs := ["/en/idea/1/a".toList, "/en/idea/2/a".toList,
              "/en/idea/3/a".toList, "/en/idea/4/a".toList,
              "/en/idea/5/a".toList, "/en/idea/6/a".toList,
              "/en/idea/7/a".toList, "/en/idea/8/a".toList,
              "/en/idea/9/a".toList, "/en/idea/10/a".toList],
    token := some ("VS0".toList) }

/-- An item-fetch oracle for which exactly the detail pages of ideas 3, 6
and 9 fail after retries. -/
def failThreeOracle (u : Chars) : Option IdeaPage :=
  if u = BASE_URL ++ "/en/idea/3/a".toList ∨ u = BASE_URL ++ "/en/idea/6/a".toList ∨
     u = BASE_URL ++ "/en/idea/9/a".toList then none
  else some plainPage

/-- An idea page whose only title is 1001 characters long and which has
no social-preview description. -/
def longTitlePage : IdeaPage :=
  { ogTitle := List.replicate 1001 'z', ogDescription := [], ogImage := [],
    docTitle := [], priceTexts := [] }

/-- An idea page whose price text matches the currency pattern with the
group 1.2.3, which Python float() cannot parse. -/
def badPricePage : IdeaPage :=
  { ogTitle := "T".toList, ogDescription := [], ogImage := [],
    docTitle := [], priceTexts := ["Desde US$ 1.2.3".toList] }

/-- An idea page carrying one price text below the floor and one above. -/
def twoPricePage : IdeaPage :=
  { ogTitle := "T".toList, ogDescription := [], ogImage := [],
    docTitle := [], priceTexts := ["Desde US$ 20".toList, "Desde US$ 900".toList] }

/-- A first listing page that exposes the same idea link twice. -/
def c1Init : PageData :=
  { hrefs := ["/en/idea/101/x".toList, "/en/idea/101/x".toList],
    token := some ("VS".toList) }

/-- The single record of the c1Init crawl with an always-plainPage oracle. -/
def c1Product : Product :=
  { id := "101".toList, ptype := "Paquete".toList,
    title := "T".toList, description := "T".toList,
    link := BASE_URL ++ "/en/idea/101/x".toList, image_link := [],
    price := none, region := "Internacional".toList, slug := "x".toList }

/-- The crawl output for c1Init with an always-plainPage oracle: the
duplicated link yields a single record. -/
def c1Out : CrawlOut := { products := [c1Product], skipLogs := 0 }

/-- A first listing page exposing a single idea link. -/
def onePage : PageData :=
  { hrefs := ["/en/idea/9/x".toList], token := some ("VS".toList) }

def oneUrls : List Chars := [BASE_URL ++ "/en/idea/9/x".toList]

/-- Discovery state after bootstrapping onePage and one failed AJAX round. -/
def oneDst : DiscState :=
  { viewstate := "VS".toList,
    links := { seen_ids := ["9".toList], idea_urls := oneUrls },
    rounds := 0, fuelOut := false }

/-- An AJAX page whose only link is already seen (a stall round). -/
def stallPage : PageData :=
  { hrefs := ["/en/idea/7/x".toList], token := none }

def stallAjax : Nat → Option PageData := fun _ => some stallPage

/-- A discovery state that has already seen idea 7. -/
def stallSt : DiscState :=
  { viewstate := "V".toList,
    links := { seen_ids := ["7".toList], idea_urls := ["u".toList] },
    rounds := 0, fuelOut := false }

/-- Crawl output when the single discovered item's fetch fails. -/
def wSkipOut : CrawlOut := { products := [], skipLogs := 1 }

/-- The record scraped from twoPricePage at URL "a". -/
def wPriceData : IdeaData :=
  { title := "T".toList, description := "T".toList, image_link := [],
    price := some { mant := 900, scale := 0 }, link := "a".toList,
    region := "Internacional".toList, slug := "a".toList,
    ptype := "Paquete".toList }

/-- The record scraped from plainPage at URL "u". -/
def wPlainData : IdeaData :=
  { title := "T".toList, description := "T".toList, image_link := [],
    price := none, link := "u".toList, region := "Internacional".toList,
    slug := "u".toList, ptype := "Paquete".toList }

lemma ideaMatchAt_ne_slash {c : Char} (rest : Chars) (h : c ≠ '/') :
    ideaMatchAt (c :: rest) = none := by
  simp only [ideaMatchAt]
  rw [if_neg]
  intro hEq
  rw [List.take_succ_cons] at hEq
  have h2 : "/idea/".toList = '/' :: "idea/".toList := rfl
  rw [h2] at hEq
  exact h ((List.cons.injEq c _ '/' _).mp hEq).1

lemma ideaMatchAt_slash_ne {c : Char} (rest : Chars) (h : c ≠ 'i') :
    ideaMatchAt ('/' :: c :: rest) = none := by
  simp only [ideaMatchAt]
  rw [if_neg]
  intro hEq
  rw [List.take_succ_cons, List.take_succ_cons] at hEq
  have h2 : "/idea/".toList = '/' :: 'i' :: "dea/".toList := rfl
  rw [h2] at hEq
  have h3 := ((List.cons.injEq _ _ _ _).mp hEq).2
  exact h ((List.cons.injEq c _ 'i' _).mp h3).1

lemma eiiAux_cons_none {c : Char} {rest : Chars}
    (h : ideaMatchAt (c :: rest) = none) : eiiAux (c :: rest) = eiiAux rest := by
  simp only [eiiAux, h]

/-- Prepending BASE_URL to an href never creates or destroys an
identifier match: no suffix of "https://www.estropical.com" can begin a
match of the pattern (the only slashes are the double slash of the
scheme, not followed by the letter i). -/
lemma eiiAux_base_append (s : Chars) : eiiAux (BASE_URL ++ s) = eiiAux s := by
  show eiiAux ('h' :: 't' :: 't' :: 'p' :: 's' :: ':' :: '/' :: '/' :: 'w' :: 'w' ::
    'w' :: '.' :: 'e' :: 's' :: 't' :: 'r' :: 'o' :: 'p' :: 'i' :: 'c' :: 'a' ::
    'l' :: '.' :: 'c' :: 'o' :: 'm' :: s) = eiiAux s
  rw [eiiAux_cons_none (ideaMatchAt_ne_slash _ (by decide))]
  rw [eiiAux_cons_none (ideaMatchAt_ne_slash _ (by decide))]
  rw [eiiAux_cons_none (ideaMatchAt_ne_slash _ (by decide))]
  rw [eiiAux_cons_none (ideaMatchAt_ne_slash _ (by decide))]
  rw [eiiAux_cons_none (ideaMatchAt_ne_slash _ (by decide))]
  rw [eiiAux_cons_none (ideaMatchAt_ne_slash _ (by decide))]
  rw [eiiAux_cons_none (ideaMatchAt_slash_ne _ (by decide))]
  rw [eiiAux_cons_none (ideaMatchAt_slash_ne _ (by decide))]
  rw [eiiAux_cons_none (ideaMatchAt_ne_slash _ (by decide))]
  rw [eiiAux_cons_none (ideaMatchAt_ne_slash _ (by decide))]
  rw [eiiAux_cons_none (ideaMatchAt_ne_slash _ (by decide))]
  rw [eiiAux_cons_none (ideaMatchAt_ne_slash _ (by decide))]
  rw [eiiAux_cons_none (ideaMatchAt_ne_slash _ (by decide))]
  rw [eiiAux_cons_none (ideaMatchAt_ne_slash _ (by decide))]
  rw [eiiAux_cons_none (ideaMatchAt_ne_slash _ (by decide))]
  rw [eiiAux_cons_none (ideaMatchAt_ne_slash _ (by decide))]
  rw [eiiAux_cons_none (ideaMatchAt_ne_slash _ (by decide))]
  rw [eiiAux_cons_none (ideaMatchAt_ne_slash _ (by decide))]
  rw [eiiAux_cons_none (ideaMatchAt_ne_slash _ (by decide))]
  rw [eiiAux_cons_none (ideaMatchAt_ne_slash _ (by decide))]
  rw [eiiAux_cons_none (ideaMatchAt_ne_slash _ (by decide))]
  rw [eiiAux_cons_none (ideaMatchAt_ne_slash _ (by decide))]
  rw [eiiAux_cons_none (ideaMatchAt_ne_slash _ (by decide))]
  rw [eiiAux_cons_none (ideaMatchAt_ne_slash _ (by decide))]
  rw [eiiAux_cons_none (ideaMatchAt_ne_slash _ (by decide))]
  rw [eiiAux_cons_none (ideaMatchAt_ne_slash _ (by decide))]

/-- The URL appended by collect_links extracts to the same identifier
the href was deduplicated under. -/
lemma extract_idea_id_full (href : Chars) :
    extract_idea_id (if href.take 4 = "http".toList then href
                     else BASE_URL ++ href) = extract_idea_id href := by
  by_cases h : href.take 4 = "http".toList
  · rw [if_pos h]
  · rw [if_neg h]
    exact eiiAux_base_append href

lemma fetchAux_attempts_le (o : Nat → AttemptResult) :
    ∀ n a, (fetchAux o a n).attempts ≤ n := by
  intro n
  induction n with
  | zero => intro a; simp [fetchAux]
  | succ n ih =>
    intro a
    rcases h : o a with ⟨s, text⟩ | _
    · by_cases h200 : s = 200 <;> simp [fetchAux, h, h200]
    · simp only [fetchAux, h]
      have := ih (a + 1)
      omega

lemma fetchAux_waits (o : Nat → AttemptResult) :
    ∀ n a, (fetchAux o a n).waits =
      (List.range' a (leadExc o a n)).map (fun k => 2 ^ k) := by
  intro n
  induction n with
  | zero => intro a; simp [fetchAux, leadExc]
  | succ n ih =>
    intro a
    rcases h : o a with ⟨s, text⟩ | _
    · by_cases h200 : s = 200 <;> simp [fetchAux, leadExc, h, h200]
    · simp only [fetchAux, leadExc, h]
      rw [ih (a + 1)]
      rw [List.range'_succ]
      simp

lemma fetchAux_first_response (o : Nat → AttemptResult) (s : Nat) (text : Chars) :
    ∀ k n a, k < n → (∀ j, j < k → o (a + j) = .exception) →
      o (a + k) = .response s text → s ≠ 200 →
      fetchAux o a n =
        { result := none, attempts := k + 1,
          waits := (List.range' a k).map (fun j => 2 ^ j), statusLog := [s] } := by
  intro k
  induction k with
  | zero =>
    intro n a hk hexc hresp h200
    match n, hk with
    | n + 1, _ =>
      simp only [Nat.add_zero] at hresp
      simp [fetchAux, hresp, h200]
  | succ k ih =>
    intro n a hk hexc hresp h200
    match n, hk with
    | n + 1, hk =>
      have ha : o a = .exception := by simpa using hexc 0 (Nat.succ_pos k)
      simp only [fetchAux, ha]
      rw [ih n (a + 1) (by omega) ?_ ?_ h200]
      · simp [List.range'_succ]
      · intro j hj
        have hjj : a + 1 + j = a + (j + 1) := by omega
        rw [hjj]
        exact hexc (j + 1) (by omega)
      · have hkk : a + 1 + k = a + (k + 1) := by omega
        rw [hkk]
        exact hresp

lemma sum_pow_two_range (e : Nat) :
    (((List.range' 0 e).map (fun k => 2 ^ k)).sum) = 2 ^ e - 1 := by
  induction e with
  | zero => simp
  | succ e ih =>
    rw [List.range'_1_concat, List.map_append, List.sum_append]
    simp only [Nat.zero_add, List.map_cons, List.map_nil, List.sum_cons, List.sum_nil]
    rw [ih]
    have h1 : 1 ≤ 2 ^ e := Nat.one_le_two_pow
    rw [pow_succ]
    omega


/-- C3: for every single request, `fetch_with_retry` issues at most
`retries + 1` attempts (the source in fact issues at most `retries`), the
sleep performed between consecutive attempts `k` and `k + 1` is `2 ^ k`
time units (the delay doubling each attempt), and the total sleep time of
the call is exactly the deterministic sum of that backoff schedule,
`2 ^ e - 1` where `e` is the number of attempts that failed with a
transport-level exception. -/
theorem transport_retry_schedule (o : Nat → AttemptResult) (retries : Nat) :
    (fetch_with_retry o retries).attempts ≤ retries + 1 ∧
    (fetch_with_retry o retries).waits =
      (List.range (leadExc o 0 retries)).map (fun k => 2 ^ k) ∧
    (fetch_with_retry o retries).waits.sum = 2 ^ leadExc o 0 retries - 1 := by
  refine ⟨Nat.le_succ_of_le (fetchAux_attempts_le o retries 0), ?_, ?_⟩
  · rw [List.range_eq_range']
    exact fetchAux_waits o retries 0
  · rw [fetch_with_retry, fetchAux_waits o retries 0]
    exact sum_pow_two_range (leadExc o 0 retries)

/-- C4: a response carrying a non-2xx status is never retried: if the
first `k` attempts raise transport exceptions and attempt `k` receives a
response with a non-2xx status `s`, the call stops at exactly `k + 1`
attempts, performs no further backoff sleep, logs that status, and
returns `none` to the caller immediately.  (In the source no HTTP status
at all is retryable — only `requests.RequestException` triggers a retry —
so the claim's "retryable status" clause is vacuous.) -/
theorem transport_non2xx_immediate (o : Nat → AttemptResult) (retries k s : Nat)
    (text : Chars) (hk : k < retries) (hexc : ∀ j, j < k → o j = .exception)
    (hresp : o k = .response s text) (h2xx : s < 200 ∨ 300 ≤ s) :
    fetch_with_retry o retries =
      { result := none, attempts := k + 1,
        waits := (List.range k).map (fun j => 2 ^ j), statusLog := [s] } := by
  have h200 : s ≠ 200 := by omega
  rw [List.range_eq_range']
  exact fetchAux_first_response o s text k retries 0 hk
    (fun j hj => by simpa using hexc j hj) (by simpa using hresp) h200

/-- Witness for C4: a request whose first attempt returns status 404 is
reported after exactly one attempt with no sleeping. -/
theorem transport_non2xx_immediate_witness :
    fetch_with_retry (fun _ => .response 404 []) 3 =
      { result := none, attempts := 1, waits := [], statusLog := [404] } :=
  transport_non2xx_immediate (fun _ => .response 404 []) 3 0 404 []
    (by omega) (fun j hj => absurd hj (by omega)) rfl (by omega)

/-- Behaviour check mirroring the specification's dedup scenario: a
first page with idea links 101, 102, 103 and a second page (after one
token rotation) with 103 and 104 yield exactly the identifier sequence
101, 102, 103, 104, with 103 counted once. -/
theorem crawl_scenario_four_ids :
    (crawl
      (some { hrefs := ["/en/idea/101/a".toList, "/en/idea/102/b".toList,
                        "/en/idea/103/c".toList],
              token := some ("VS0".toList) })
      (fun k => if k = 0 then
          some { hrefs := ["/en/idea/103/c".toList, "/en/idea/104/d".toList],
                 token := some ("VS1".toList) }
        else none)
      (fun _ => some plainPage)
      500).map (fun o => o.products.map (fun p => p.id)) =
    .ok [("101".toList), ("102".toList), ("103".toList), ("104".toList)] := by
  decide

lemma linkInv_collectOne {st : LinkState} (h : LinkInv st) (href : Chars) :
    LinkInv (collectOne st href) := by
  obtain ⟨hnd, hmem⟩ := h
  cases hid : extract_idea_id href with
  | none => simp only [collectOne, hid]; exact ⟨hnd, hmem⟩
  | some i =>
    simp only [collectOne, hid]
    by_cases hacc : i ≠ [] ∧ i ∉ st.seen_ids
    · rw [if_pos hacc]
      have hfull : extract_idea_id (if href.take 4 = "http".toList then href
          else BASE_URL ++ href) = some i := by
        rw [extract_idea_id_full, hid]
      refine ⟨?_, ?_⟩
      · simp only [List.filterMap_append, List.filterMap_cons, List.filterMap_nil, hfull]
        rw [List.nodup_append]
        refine ⟨hnd, List.nodup_singleton i, ?_⟩
        intro a ha hb
        simp only [List.mem_singleton] at hb
        subst hb
        rcases List.mem_filterMap.mp ha with ⟨u, hu, hui⟩
        rcases hmem u hu with ⟨j, hj1, hj2⟩
        rw [hui] at hj1
        injection hj1 with hj1
        subst hj1
        exact hacc.2 hj2
      · intro u hu
        rcases List.mem_append.mp hu with h1 | h2
        · rcases hmem u h1 with ⟨j, hj1, hj2⟩
          exact ⟨j, hj1, List.mem_cons_of_mem _ hj2⟩
        · rw [List.mem_singleton] at h2
          subst h2
          exact ⟨i, hfull, List.mem_cons_self _ _⟩
    · rw [if_neg hacc]
      exact ⟨hnd, hmem⟩

lemma linkInv_collect_links (hrefs : List Chars) :
    ∀ st : LinkState, LinkInv st → LinkInv (collect_links st hrefs) := by
  induction hrefs with
  | nil => intro st h; exact h
  | cons a l ih =>
    intro st h
    exact ih (collectOne st a) (linkInv_collectOne h a)

lemma collectOne_length_le (st : LinkState) (href : Chars) :
    st.idea_urls.length ≤ (collectOne st href).idea_urls.length := by
  cases hid : extract_idea_id href with
  | none => simp [collectOne, hid]
  | some i =>
    simp only [collectOne, hid]
    by_cases hacc : i ≠ [] ∧ i ∉ st.seen_ids
    · rw [if_pos hacc]; simp
    · rw [if_neg hacc]

lemma collect_links_length_le (hrefs : List Chars) :
    ∀ st : LinkState, st.idea_urls.length ≤ (collect_links st hrefs).idea_urls.length := by
  induction hrefs with
  | nil => intro st; exact le_refl _
  | cons a l ih =>
    intro st
    exact le_trans (collectOne_length_le st a) (ih (collectOne st a))

lemma discoverLoop_stop (ajax : Nat → Option PageData) (maxIdeas : Nat)
    (fuel : Nat) (st : DiscState) (h : ¬ st.links.idea_urls.length < maxIdeas) :
    discoverLoop ajax maxIdeas fuel st = st := by
  cases fuel with
  | zero => simp only [discoverLoop]; rw [if_neg h]
  | succ fuel => simp only [discoverLoop]; rw [if_neg h]

lemma discoverLoop_zero_out (ajax : Nat → Option PageData) (maxIdeas : Nat)
    (st : DiscState) (h : st.links.idea_urls.length < maxIdeas) :
    discoverLoop ajax maxIdeas 0 st = { st with fuelOut := true } := by
  simp only [discoverLoop]
  rw [if_pos h]

lemma discoverLoop_succ_none (ajax : Nat → Option PageData) (maxIdeas : Nat)
    (fuel : Nat) (st : DiscState) (hlen : st.links.idea_urls.length < maxIdeas)
    (haj : ajax st.rounds = none) :
    discoverLoop ajax maxIdeas (fuel + 1) st = st := by
  simp only [discoverLoop]
  rw [if_pos hlen, haj]

lemma discoverLoop_succ_some (ajax : Nat → Option PageData) (maxIdeas : Nat)
    (fuel : Nat) (st : DiscState) (page : PageData)
    (hlen : st.links.idea_urls.length < maxIdeas)
    (haj : ajax st.rounds = some page) :
    discoverLoop ajax maxIdeas (fuel + 1) st =
      if (collect_links st.links page.hrefs).idea_urls.length
          - st.links.idea_urls.length = 0 then
        { viewstate := tokenStep st.viewstate page.token,
          links := collect_links st.links page.hrefs,
          rounds := st.rounds + 1, fuelOut := st.fuelOut }
      else
        discoverLoop ajax maxIdeas fuel
          { viewstate := tokenStep st.viewstate page.token,
            links := collect_links st.links page.hrefs,
            rounds := st.rounds + 1, fuelOut := st.fuelOut } := by
  simp only [discoverLoop]
  rw [if_pos hlen, haj]

lemma discoverLoop_linkInv (ajax : Nat → Option PageData) (maxIdeas : Nat) :
    ∀ fuel st, LinkInv st.links → LinkInv (discoverLoop ajax maxIdeas fuel st).links := by
  intro fuel
  induction fuel with
  | zero =>
    intro st h
    by_cases hc : st.links.idea_urls.length < maxIdeas
    · rw [discoverLoop_zero_out ajax maxIdeas st hc]; exact h
    · rw [discoverLoop_stop ajax maxIdeas 0 st hc]; exact h
  | succ fuel ih =>
    intro st h
    by_cases hc : st.links.idea_urls.length < maxIdeas
    · cases haj : ajax st.rounds with
      | none => rw [discoverLoop_succ_none ajax maxIdeas fuel st hc haj]; exact h
      | some page =>
        rw [discoverLoop_succ_some ajax maxIdeas fuel st page hc haj]
        have h2 : LinkInv (collect_links st.links page.hrefs) :=
          linkInv_collect_links page.hrefs st.links h
        by_cases hadd : (collect_links st.links page.hrefs).idea_urls.length
            - st.links.idea_urls.length = 0
        · rw [if_pos hadd]; exact h2
        · rw [if_neg hadd]; exact ih _ h2
    · rw [discoverLoop_stop ajax maxIdeas _ st hc]; exact h

lemma discoverLoop_rounds_le (ajax : Nat → Option PageData) (maxIdeas : Nat) :
    ∀ fuel st, st.rounds ≤ (discoverLoop ajax maxIdeas fuel st).rounds := by
  intro fuel
  induction fuel with
  | zero =>
    intro st
    by_cases hc : st.links.idea_urls.length < maxIdeas
    · rw [discoverLoop_zero_out ajax maxIdeas st hc]
    · rw [discoverLoop_stop ajax maxIdeas 0 st hc]
  | succ fuel ih =>
    intro st
    by_cases hc : st.links.idea_urls.length < maxIdeas
    · cases haj : ajax st.rounds with
      | none => rw [discoverLoop_succ_none ajax maxIdeas fuel st hc haj]
      | some page =>
        rw [discoverLoop_succ_some ajax maxIdeas fuel st page hc haj]
        by_cases hadd : (collect_links st.links page.hrefs).idea_urls.length
            - st.links.idea_urls.length = 0
        · rw [if_pos hadd]
          exact Nat.le_succ _
        · rw [if_neg hadd]
          exact le_trans (Nat.le_succ _) (ih ({ viewstate := tokenStep st.viewstate page.token, links := collect_links st.links page.hrefs, rounds := st.rounds + 1, fuelOut := st.fuelOut } : DiscState))
    · rw [discoverLoop_stop ajax maxIdeas _ st hc]

lemma discoverLoop_no_fuelOut (ajax : Nat → Option PageData) (maxIdeas : Nat) :
    ∀ fuel st, st.fuelOut = false →
      maxIdeas - st.links.idea_urls.length < fuel →
      (discoverLoop ajax maxIdeas fuel st).fuelOut = false := by
  intro fuel
  induction fuel with
  | zero =>
    intro st hf hlt
    omega
  | succ fuel ih =>
    intro st hf hlt
    by_cases hc : st.links.idea_urls.length < maxIdeas
    · cases haj : ajax st.rounds with
      | none => rw [discoverLoop_succ_none ajax maxIdeas fuel st hc haj]; exact hf
      | some page =>
        rw [discoverLoop_succ_some ajax maxIdeas fuel st page hc haj]
        by_cases hadd : (collect_links st.links page.hrefs).idea_urls.length
            - st.links.idea_urls.length = 0
        · rw [if_pos hadd]; exact hf
        · rw [if_neg hadd]
          refine ih _ hf ?_
          have hmono := collect_links_length_le page.hrefs st.links
          show maxIdeas - (collect_links st.links page.hrefs).idea_urls.length < fuel
          omega
    · rw [discoverLoop_stop ajax maxIdeas _ st hc]; exact hf

lemma discoverLoop_stall (ajax : Nat → Option PageData) (maxIdeas : Nat)
    (fuel : Nat) (st : DiscState) (page : PageData)
    (hfuel : 1 ≤ fuel) (hlen : st.links.idea_urls.length < maxIdeas)
    (hajax : ajax st.rounds = some page)
    (hadd : (collect_links st.links page.hrefs).idea_urls.length
      = st.links.idea_urls.length) :
    discoverLoop ajax maxIdeas fuel st =
      { viewstate := tokenStep st.viewstate page.token,
        links := collect_links st.links page.hrefs,
        rounds := st.rounds + 1, fuelOut := st.fuelOut } := by
  match fuel, hfuel with
  | fuel + 1, _ =>
    rw [discoverLoop_succ_some ajax maxIdeas fuel st page hlen hajax]
    rw [if_pos (by omega)]

lemma roundTokens_zero (ajax : Nat → Option PageData) (a : Nat) :
    roundTokens ajax a 0 = [] := by
  simp [roundTokens]

lemma roundTokens_succ (ajax : Nat → Option PageData) (a n : Nat) :
    roundTokens ajax a (n + 1) =
      (match ajax a with | some pg => pg.token | none => none)
        :: roundTokens ajax (a + 1) n := by
  simp [roundTokens, List.range'_succ]

lemma foldl_tokenStep_getLast (toks : List (Option Chars)) :
    ∀ init, toks.foldl tokenStep init = ((toks.filterMap id).getLast?).getD init := by
  induction toks with
  | nil => intro init; simp
  | cons t ts ih =>
    intro init
    cases t with
    | none =>
      rw [List.foldl_cons]
      simp only [tokenStep]
      rw [ih init]
      simp [List.filterMap_cons]
    | some v =>
      rw [List.foldl_cons]
      simp only [tokenStep]
      rw [ih v]
      simp only [List.filterMap_cons, id]
      cases hfm : ts.filterMap id with
      | nil => simp
      | cons x xs =>
        rw [List.getLast?_cons_cons]
        cases hy : (x :: xs).getLast? with
        | none => simp at hy
        | some y => simp [hy]

lemma discoverLoop_viewstate (ajax : Nat → Option PageData) (maxIdeas : Nat) :
    ∀ fuel st, (discoverLoop ajax maxIdeas fuel st).viewstate =
      (roundTokens ajax st.rounds
        ((discoverLoop ajax maxIdeas fuel st).rounds - st.rounds)).foldl
        tokenStep st.viewstate := by
  intro fuel
  induction fuel with
  | zero =>
    intro st
    by_cases hc : st.links.idea_urls.length < maxIdeas
    · rw [discoverLoop_zero_out ajax maxIdeas st hc]
      simp [roundTokens]
    · rw [discoverLoop_stop ajax maxIdeas 0 st hc]
      simp [roundTokens]
  | succ fuel ih =>
    intro st
    by_cases hc : st.links.idea_urls.length < maxIdeas
    · cases haj : ajax st.rounds with
      | none =>
        rw [discoverLoop_succ_none ajax maxIdeas fuel st hc haj]
        simp [roundTokens]
      | some page =>
        rw [discoverLoop_succ_some ajax maxIdeas fuel st page hc haj]
        by_cases hadd : (collect_links st.links page.hrefs).idea_urls.length
            - st.links.idea_urls.length = 0
        · rw [if_pos hadd]
          show tokenStep st.viewstate page.token =
            (roundTokens ajax st.rounds (st.rounds + 1 - st.rounds)).foldl
              tokenStep st.viewstate
          have h1 : st.rounds + 1 - st.rounds = 1 := by omega
          rw [h1, roundTokens_succ, haj, roundTokens_zero]
          simp
        · rw [if_neg hadd]
          have hr := discoverLoop_rounds_le ajax maxIdeas fuel
            ({ viewstate := tokenStep st.viewstate page.token, links := collect_links st.links page.hrefs, rounds := st.rounds + 1, fuelOut := st.fuelOut } : DiscState)
          have hih := ih
            ({ viewstate := tokenStep st.viewstate page.token, links := collect_links st.links page.hrefs, rounds := st.rounds + 1, fuelOut := st.fuelOut } : DiscState)
          simp only at hr hih
          rw [hih]
          have hsplit : (discoverLoop ajax maxIdeas fuel
              ({ viewstate := tokenStep st.viewstate page.token, links := collect_links st.links page.hrefs, rounds := st.rounds + 1, fuelOut := st.fuelOut } : DiscState)).rounds - st.rounds
              = ((discoverLoop ajax maxIdeas fuel
              ({ viewstate := tokenStep st.viewstate page.token, links := collect_links st.links page.hrefs, rounds := st.rounds + 1, fuelOut := st.fuelOut } : DiscState)).rounds - (st.rounds + 1)) + 1 := by
            omega
          rw [hsplit, roundTokens_succ, haj, List.foldl_cons]
    · rw [discoverLoop_stop ajax maxIdeas _ st hc]
      simp [roundTokens]

lemma mainLoop_ids_sublist (oracle : Chars → Option IdeaPage) :
    ∀ urls m, mainLoop oracle urls = .ok m →
      (m.products.map (fun p => p.id)).Sublist (urls.filterMap extract_idea_id) := by
  intro urls
  induction urls with
  | nil =>
    intro m h
    simp only [mainLoop] at h
    injection h with h
    subst h
    simp
  | cons url rest ih =>
    intro m h
    cases hid : extract_idea_id url with
    | none =>
      simp only [mainLoop, hid] at h
      simp only [List.filterMap_cons, hid]
      exact ih m h
    | some i =>
      simp only [mainLoop, hid] at h
      simp only [List.filterMap_cons, hid]
      cases hs : scrape_idea_page oracle url with
      | error e =>
        rw [hs] at h
        cases h
      | ok od =>
        rw [hs] at h
        cases od with
        | none =>
          cases hrec : mainLoop oracle rest with
          | error e =>
            rw [hrec] at h
            simp only [Except.map] at h
            cases h
          | ok m2 =>
            rw [hrec] at h
            simp only [Except.map] at h
            injection h with h
            subst h
            exact (ih m2 hrec).cons i
        | some d =>
          cases hrec : mainLoop oracle rest with
          | error e =>
            rw [hrec] at h
            simp only [Except.map] at h
            cases h
          | ok m2 =>
            rw [hrec] at h
            simp only [Except.map] at h
            injection h with h
            subst h
            exact (ih m2 hrec).cons₂ i

lemma mainLoop_counts (oracle : Chars → Option IdeaPage) :
    ∀ urls m, (∀ u ∈ urls, (extract_idea_id u).isSome) →
      mainLoop oracle urls = .ok m →
      m.products.length = (urls.filter (fun u => (oracle u).isSome)).length ∧
      m.skipLogs = (urls.filter (fun u => (oracle u).isNone)).length := by
  intro urls
  induction urls with
  | nil =>
    intro m _ h
    simp only [mainLoop] at h
    injection h with h
    subst h
    simp
  | cons url rest ih =>
    intro m hids h
    obtain ⟨i, hid⟩ := Option.isSome_iff_exists.mp (hids url (List.mem_cons_self _ _))
    simp only [mainLoop, hid] at h
    cases ho : oracle url with
    | none =>
      have hs : scrape_idea_page oracle url = .ok none := by
        simp [scrape_idea_page, ho]
      rw [hs] at h
      cases hrec : mainLoop oracle rest with
      | error e =>
        rw [hrec] at h
        simp only [Except.map] at h
        cases h
      | ok m2 =>
        rw [hrec] at h
        simp only [Except.map] at h
        injection h with h
        subst h
        obtain ⟨h1, h2⟩ := ih m2 (fun u hu => hids u (List.mem_cons_of_mem _ hu)) hrec
        constructor
        · simp [List.filter_cons, ho, h1]
        · simp [List.filter_cons, ho, h2]
    | some pg =>
      cases hb : buildData url pg with
      | error e =>
        have hs : scrape_idea_page oracle url = .error e := by
          simp [scrape_idea_page, ho, hb, Except.map]
        rw [hs] at h
        cases h
      | ok d =>
        have hs : scrape_idea_page oracle url = .ok (some d) := by
          simp [scrape_idea_page, ho, hb, Except.map]
        rw [hs] at h
        cases hrec : mainLoop oracle rest with
        | error e =>
          rw [hrec] at h
          simp only [Except.map] at h
          cases h
        | ok m2 =>
          rw [hrec] at h
          simp only [Except.map] at h
          injection h with h
          subst h
          obtain ⟨h1, h2⟩ := ih m2 (fun u hu => hids u (List.mem_cons_of_mem _ hu)) hrec
          constructor
          · simp [List.filter_cons, ho, h1]
          · simp [List.filter_cons, ho, h2]

lemma mainLoop_all_success (oracle : Chars → Option IdeaPage) :
    ∀ urls, (∀ u ∈ urls, (extract_idea_id u).isSome) →
      (∀ u ∈ urls, ∃ d, scrape_idea_page oracle u = .ok (some d)) →
      ∃ m, mainLoop oracle urls = .ok m ∧
        m.products.length = urls.length ∧ m.skipLogs = 0 := by
  intro urls
  induction urls with
  | nil => intro _ _; exact ⟨_, rfl, rfl, rfl⟩
  | cons url rest ih =>
    intro hids hsucc
    obtain ⟨i, hid⟩ := Option.isSome_iff_exists.mp (hids url (List.mem_cons_self _ _))
    obtain ⟨d, hd⟩ := hsucc url (List.mem_cons_self _ _)
    obtain ⟨m2, hm2, hlen, hskip⟩ :=
      ih (fun u hu => hids u (List.mem_cons_of_mem _ hu))
        (fun u hu => hsucc u (List.mem_cons_of_mem _ hu))
    refine ⟨{ products := toProduct i d :: m2.products, skipLogs := m2.skipLogs },
      ?_, ?_, ?_⟩
    · simp only [mainLoop, hid, hd, hm2, Except.map]
    · simp [hlen]
    · simp [hskip]

lemma mainLoop_products_le (oracle : Chars → Option IdeaPage)
    (urls : List Chars) (m : MainOut) (h : mainLoop oracle urls = .ok m) :
    m.products.length ≤ urls.length := by
  have h1 := (mainLoop_ids_sublist oracle urls m h).length_le
  rw [List.length_map] at h1
  exact le_trans h1 (List.length_filterMap_le _ _)

lemma linkInv_empty : LinkInv { seen_ids := [], idea_urls := [] } := by
  constructor
  · simp
  · intro u hu
    simp at hu

lemma discover_ok_inv (init : Option PageData) (ajax : Nat → Option PageData)
    (maxIdeas : Nat) (urls : List Chars) (dst : DiscState)
    (h : discover_idea_urls init ajax maxIdeas = .ok (urls, dst)) :
    (urls.filterMap extract_idea_id).Nodup ∧
    (∀ u ∈ urls, (extract_idea_id u).isSome) ∧
    urls.length ≤ maxIdeas ∧ dst.fuelOut = false := by
  cases init with
  | none => cases h
  | some page0 =>
    cases ht : page0.token with
    | none =>
      simp only [discover_idea_urls, ht] at h
      cases h
    | some vs =>
      simp only [discover_idea_urls, ht] at h
      injection h with h
      have hpair := Prod.mk.injEq .. |>.mp h
      obtain ⟨h1, h2⟩ := hpair
      have hinv0 : LinkInv (collect_links { seen_ids := [], idea_urls := [] } page0.hrefs) :=
        linkInv_collect_links page0.hrefs _ linkInv_empty
      have hinv : LinkInv (discoverLoop ajax maxIdeas (maxIdeas + 1)
          ({ viewstate := vs,
             links := collect_links { seen_ids := [], idea_urls := [] } page0.hrefs,
             rounds := 0, fuelOut := false } : DiscState)).links :=
        discoverLoop_linkInv ajax maxIdeas (maxIdeas + 1) _ hinv0
      obtain ⟨hnd, hmem⟩ := hinv
      subst h1
      refine ⟨?_, ?_, ?_, ?_⟩
      · exact List.Nodup.sublist
          (List.Sublist.filterMap extract_idea_id (List.take_sublist _ _)) hnd
      · intro u hu
        rcases hmem u (List.take_subset _ _ hu) with ⟨i, hi, _⟩
        rw [hi]
        rfl
      · exact List.length_take_le _ _
      · subst h2
        refine discoverLoop_no_fuelOut ajax maxIdeas (maxIdeas + 1) _ rfl ?_
        omega

/-- C1: for every crawl, no two entries of the final results sequence
share an identifier.  A link is appended to the pending list only if its
identifier is not in the seen-set, and it is marked seen at the moment of
acceptance (collectOne), so across any pages — including a link repeated
on one page or across pages — each identifier yields at most one
ItemRecord in the crawl's output. -/
theorem crawl_ids_nodup (init : Option PageData) (ajax : Nat → Option PageData)
    (oracle : Chars → Option IdeaPage) (maxIdeas : Nat) (out : CrawlOut)
    (h : crawl init ajax oracle maxIdeas = .ok out) :
    (out.products.map (fun p => p.id)).Nodup := by
  cases hd : discover_idea_urls init ajax maxIdeas with
  | error e =>
    simp only [crawl, hd] at h
    exact Except.noConfusion h
  | ok pr =>
    obtain ⟨urls, dst⟩ := pr
    cases hm : mainLoop oracle urls with
    | error e =>
      simp only [crawl, hd, hm] at h
      exact Except.noConfusion h
    | ok m =>
      simp only [crawl, hd, hm] at h
      have hsub := mainLoop_ids_sublist oracle urls m hm
      have hnd := (discover_ok_inv init ajax maxIdeas urls dst hd).1
      have hmn : (m.products.map (fun p => p.id)).Nodup := List.Nodup.sublist hsub hnd
      injection h with h
      rw [← h]
      exact hmn

/-- Witness for C1: a first page repeating the link of idea 101 twice
still produces exactly one record, with pairwise distinct identifiers. -/
theorem crawl_ids_nodup_witness :
    (c1Out.products.map (fun p => p.id)).Nodup :=
  crawl_ids_nodup (some c1Init) (fun _ => none) (fun _ => some plainPage) 500
    c1Out (by decide)

/-- C2: the configured cap bounds the number of ItemRecords every crawl
produces; and in the claim's scenario — maxItems = 2 with a first page
yielding 5 links — a crawl whose item fetches succeed halts extraction
with exactly 2 ItemRecords produced (not merely 2 links queued). -/
theorem cap_bounds_item_records :
    (∀ (init : Option PageData) (ajax : Nat → Option PageData)
       (oracle : Chars → Option IdeaPage) (maxIdeas : Nat) (out : CrawlOut),
      crawl init ajax oracle maxIdeas = .ok out →
      out.products.length ≤ maxIdeas) ∧
    (∀ (ajax : Nat → Option PageData) (oracle : Chars → Option IdeaPage),
      (∀ u, ∃ d, scrape_idea_page oracle u = .ok (some d)) →
      (crawl (some fiveLinkPage) ajax oracle 2).map
        (fun o => o.products.length) = .ok 2) := by
  constructor
  · intro init ajax oracle maxIdeas out h
    cases hd : discover_idea_urls init ajax maxIdeas with
    | error e =>
      simp only [crawl, hd] at h
      exact Except.noConfusion h
    | ok pr =>
      obtain ⟨urls, dst⟩ := pr
      cases hm : mainLoop oracle urls with
      | error e =>
        simp only [crawl, hd, hm] at h
        exact Except.noConfusion h
      | ok m =>
        simp only [crawl, hd, hm] at h
        injection h with h
        have h1 := mainLoop_products_le oracle urls m hm
        have h2 := (discover_ok_inv init ajax maxIdeas urls dst hd).2.2.1
        rw [← h]
        exact le_trans h1 h2
  · intro ajax oracle hsucc
    obtain ⟨urls, dst, hd, hurls⟩ :
        ∃ urls dst, discover_idea_urls (some fiveLinkPage) ajax 2 = .ok (urls, dst) ∧
          urls = [BASE_URL ++ "/en/idea/101/a".toList,
                  BASE_URL ++ "/en/idea/102/a".toList] := ⟨_, _, rfl, rfl⟩
    have hids : ∀ u ∈ urls, (extract_idea_id u).isSome := by
      subst hurls
      decide
    obtain ⟨m, hm, hlen, _⟩ :=
      mainLoop_all_success oracle urls hids (fun u _ => hsucc u)
    have hlen2 : m.products.length = 2 := by
      rw [hlen, hurls]
      rfl
    simp only [crawl, hd, hm, Except.map]
    rw [hlen2]

/-- Witness for C2: the five-link page with maxItems = 2 and an oracle
that always succeeds yields exactly two records. -/
theorem cap_bounds_item_records_witness :
    (crawl (some fiveLinkPage) (fun _ => none) (fun _ => some plainPage) 2).map
      (fun o => o.products.length) = .ok 2 :=
  cap_bounds_item_records.2 (fun _ => none) (fun _ => some plainPage)
    (fun u => ⟨_, rfl⟩)

/-- C5: after every pagination round the held ViewState is the most
recently observed non-absent token.  The per-round update (tokenStep)
overwrites the held value with an extracted token (last-write-wins) and
keeps it unchanged when the response has none; consequently, for any run
of the pagination loop, the final held token is the last non-absent
entry of the observed token sequence, or the initial token when none was
observed — an absent token never regresses or clears the held value. -/
theorem session_token_last_write :
    (∀ vs : Chars, tokenStep vs none = vs) ∧
    (∀ (vs t : Chars), tokenStep vs (some t) = t) ∧
    (∀ (init : Chars) (toks : List (Option Chars)),
      toks.foldl tokenStep init = ((toks.filterMap id).getLast?).getD init) ∧
    (∀ (ajax : Nat → Option PageData) (maxIdeas fuel : Nat) (st : DiscState),
      (discoverLoop ajax maxIdeas fuel st).viewstate =
        (((roundTokens ajax st.rounds
          ((discoverLoop ajax maxIdeas fuel st).rounds - st.rounds)).filterMap
            id).getLast?).getD st.viewstate) := by
  refine ⟨fun vs => rfl, fun vs t => rfl, ?_, ?_⟩
  · intro init toks
    exact foldl_tokenStep_getLast toks init
  · intro ajax maxIdeas fuel st
    rw [discoverLoop_viewstate ajax maxIdeas fuel st]
    exact foldl_tokenStep_getLast _ _

/-- C6: the pagination loop always terminates.  First conjunct: a round
that yields zero new links after global deduplication ends the loop
within that very round (one more round).  Second conjunct: every
successful discovery run finishes without exhausting its fuel bound,
i.e. the loop provably terminates on all inputs. -/
theorem discovery_stall_and_termination :
    (∀ (ajax : Nat → Option PageData) (maxIdeas fuel : Nat)
       (st : DiscState) (page : PageData),
      1 ≤ fuel → st.links.idea_urls.length < maxIdeas →
      ajax st.rounds = some page →
      (collect_links st.links page.hrefs).idea_urls.length
        = st.links.idea_urls.length →
      (discoverLoop ajax maxIdeas fuel st).rounds = st.rounds + 1) ∧
    (∀ (init : Option PageData) (ajax : Nat → Option PageData)
       (maxIdeas : Nat) (urls : List Chars) (dst : DiscState),
      discover_idea_urls init ajax maxIdeas = .ok (urls, dst) →
      dst.fuelOut = false) := by
  constructor
  · intro ajax maxIdeas fuel st page hfuel hlen hajax hadd
    rw [discoverLoop_stall ajax maxIdeas fuel st page hfuel hlen hajax hadd]
  · intro init ajax maxIdeas urls dst h
    exact (discover_ok_inv init ajax maxIdeas urls dst h).2.2.2

/-- Witness for C6: a round whose only link is already seen stalls the
loop after exactly one more round, and a concrete discovery run ends
with its fuel intact. -/
theorem discovery_stall_and_termination_witness :
    (discoverLoop stallAjax 500 3 stallSt).rounds = stallSt.rounds + 1 ∧
    oneDst.fuelOut = false :=
  ⟨discovery_stall_and_termination.1 stallAjax 500 3 stallSt stallPage
      (by omega) (by decide) rfl (by decide),
   discovery_stall_and_termination.2 (some onePage) (fun _ => none) 500
      oneUrls oneDst (by decide)⟩

lemma filter_isSome_isNone_length (oracle : Chars → Option IdeaPage) (l : List Chars) :
    (l.filter (fun u => (oracle u).isSome)).length
      + (l.filter (fun u => (oracle u).isNone)).length = l.length := by
  induction l with
  | nil => simp
  | cons a t ih =>
    cases ho : oracle a with
    | none =>
      simp [List.filter_cons, ho]
      omega
    | some pg =>
      simp [List.filter_cons, ho]
      omega

/-- C7(amended): failed item fetches do not abort the crawl: a crawl
that completes returns exactly one ItemRecord per successful fetch
(7 when 3 of 10 fail), and each failed item produces one "Skipped"
log line — but the aggregate failure count appears only as the number
of those log lines; the saved summary reports only the success count. -/
theorem partial_failure_resilience (init : Option PageData)
    (ajax : Nat → Option PageData) (oracle : Chars → Option IdeaPage)
    (maxIdeas : Nat) (out : CrawlOut) (urls : List Chars) (dst : DiscState)
    (hd : discover_idea_urls init ajax maxIdeas = .ok (urls, dst))
    (h : crawl init ajax oracle maxIdeas = .ok out) :
    out.products.length = (urls.filter (fun u => (oracle u).isSome)).length ∧
    out.skipLogs = (urls.filter (fun u => (oracle u).isNone)).length ∧
    out.products.length + out.skipLogs = urls.length := by
  cases hm : mainLoop oracle urls with
  | error e =>
    simp only [crawl, hd, hm] at h
    exact Except.noConfusion h
  | ok m =>
    simp only [crawl, hd, hm] at h
    injection h with h
    have hids := (discover_ok_inv init ajax maxIdeas urls dst hd).2.1
    obtain ⟨h1, h2⟩ := mainLoop_counts oracle urls m hids hm
    rw [← h]
    refine ⟨h1, h2, ?_⟩
    rw [h1, h2]
    exact filter_isSome_isNone_length oracle urls

/-- Witness for C7(amended): a crawl whose single discovered item fails
returns zero records and one skip log line. -/
theorem partial_failure_resilience_witness :
    wSkipOut.products.length =
      (oneUrls.filter (fun u =>
        ((fun _ => (none : Option IdeaPage)) u).isSome)).length ∧
    wSkipOut.skipLogs =
      (oneUrls.filter (fun u =>
        ((fun _ => (none : Option IdeaPage)) u).isNone)).length ∧
    wSkipOut.products.length + wSkipOut.skipLogs = oneUrls.length :=
  partial_failure_resilience (some onePage) (fun _ => none) (fun _ => none)
    500 wSkipOut oneUrls oneDst (by decide) (by decide)

/-- C7(counterexample): with 10 discovered items of which exactly 3 fail
after retries, the crawl returns 7 records (not aborted), prints 3
individual skip lines, but the counters its output reports — the saved
count and the three type tallies — are [7, 0, 0, 7]: no reported count
equals the number of failed items, so the output does not report a
skip/failure count equal to 3 as the claim states. -/
theorem partial_failure_counterexample :
    (crawl (some tenLinkPage) (fun _ => none) failThreeOracle 500).map
      (fun o => (o.products.length, o.skipLogs, reportedCounts o,
        decide (3 ∈ reportedCounts o))) = .ok (7, 3, [7, 0, 0, 7], false) := by
  decide

/-- C8: classification is first-match-wins in the table's listed order:
for every table and every (lowercased) text, the keyword loop returns
the value paired with the earliest entry whose keyword occurs in the
text, and the default "Internacional" when no entry matches; on the
claim's example table, the entry listed first shadows the broader later
match for slug "victoria-falls-zimbabwe"; and infer_region is exactly
this loop over REGION_KEYWORDS applied to the lowercased text. -/
theorem region_first_match_wins :
    (∀ (table : List (Chars × Chars)) (lower : Chars),
      infer_region_with table lower =
        match table.find? (fun e => isSubstr e.1 lower) with
        | some e => e.2
        | none => "Internacional".toList) ∧
    infer_region_with [("falls".toList, "Region=Falls".toList),
        ("zimbabwe".toList, "Region=Country".toList)]
      ("victoria-falls-zimbabwe".toList) = "Region=Falls".toList ∧
    (∀ text : Chars, infer_region text =
      infer_region_with REGION_KEYWORDS (text.map Char.toLower)) := by
  refine ⟨?_, by decide, fun text => rfl⟩
  intro table
  induction table with
  | nil => intro lower; rfl
  | cons e rest ih =>
    intro lower
    obtain ⟨kw, region⟩ := e
    by_cases hs : isSubstr kw lower = true
    · rw [List.find?_cons_of_pos _ (by simpa using hs)]
      simp [infer_region_with, hs]
    · rw [List.find?_cons_of_neg _ (by simpa using hs)]
      rw [← ih lower]
      simp only [infer_region_with]
      rw [if_neg hs]

lemma extractPrice_ok_firstQualifying :
    ∀ texts q, extractPrice texts = .ok q → q = firstQualifyingPrice texts := by
  intro texts
  induction texts with
  | nil =>
    intro q h
    simp only [extractPrice] at h
    injection h with h
    subst h
    rfl
  | cons t rest ih =>
    intro q h
    cases hp : parse_price t with
    | error e =>
      simp only [extractPrice, hp] at h
      exact Except.noConfusion h
    | ok op =>
      cases op with
      | none =>
        simp only [extractPrice, hp] at h
        rw [ih q h]
        simp [firstQualifyingPrice, List.findSome?_cons, hp]
      | some p =>
        by_cases hg : p.gt50 = true
        · simp only [extractPrice, hp, hg, if_true] at h
          injection h with h
          subst h
          simp [firstQualifyingPrice, List.findSome?_cons, hp, hg]
        · have hg2 : p.gt50 = false := by
            cases hgg : p.gt50
            · rfl
            · exact absurd hgg hg
          simp only [extractPrice, hp, hg2] at h
          rw [ih q h]
          simp [firstQualifyingPrice, List.findSome?_cons, hp, hg2]

/-- C9(amended): when the record is produced, its price is exactly the
first currency match whose parsed value exceeds the sanity floor 50, and
absent when no scanned text qualifies; conversely, whenever the price
loop runs without a parse error — in particular when no match qualifies —
the record is still produced.  (The un-amended claim fails only because
a match the float parser cannot read raises an uncaught error instead of
yielding a record; see the counterexample.) -/
theorem price_first_qualifying :
    (∀ (url : Chars) (pg : IdeaPage) (d : IdeaData),
      buildData url pg = .ok d →
      d.price = firstQualifyingPrice pg.priceTexts) ∧
    (∀ (url : Chars) (pg : IdeaPage) (q : Option DecVal),
      extractPrice pg.priceTexts = .ok q →
      ∃ d, buildData url pg = .ok d ∧ d.price = q) := by
  constructor
  · intro url pg d h
    cases he : extractPrice pg.priceTexts with
    | error e =>
      simp only [buildData, he] at h
      exact Except.noConfusion h
    | ok q =>
      simp only [buildData, he] at h
      injection h with h
      rw [← h]
      exact (extractPrice_ok_firstQualifying pg.priceTexts q he).symm ▸
        (extractPrice_ok_firstQualifying pg.priceTexts q he)
  · intro url pg q h
    cases hb : buildData url pg with
    | error e =>
      simp only [buildData, h] at hb
      exact Except.noConfusion hb
    | ok d =>
      refine ⟨d, rfl, ?_⟩
      simp only [buildData, h] at hb
      injection hb with hb
      rw [← hb]

/-- Witness for C9(amended): on a page whose price texts carry the
values 20 and 900, the produced record's price is the first qualifying
match, 900. -/
theorem price_first_qualifying_witness :
    wPriceData.price = firstQualifyingPrice twoPricePage.priceTexts :=
  price_first_qualifying.1 ("a".toList) twoPricePage wPriceData (by decide)

/-- C9(counterexample): the text "Desde US$ 1.2.3" contains a currency
match (group 1.2.3, no parsed value above the floor), yet no record is
produced: scrape_idea_page raises an uncaught ValueError (modelled as an
error), contradicting "the record is still produced with price absent". -/
theorem price_crash_counterexample :
    (priceScan ("Desde US$ 1.2.3".toList)).isSome = true ∧
    buildData (BASE_URL ++ "/en/idea/9/x".toList) badPricePage = .error () :=
  ⟨by decide, by decide⟩

/-- C10(amended): every produced record's title is the page title
truncated to at most 150 characters; when the page carries a non-empty
social-preview description the record's description is that description
truncated to at most 1000 characters; when it does not, the description
is the full, untruncated page title — which may exceed 1000 characters
(see the counterexample) — rather than being absent or empty. -/
theorem truncation_amended (url : Chars) (pg : IdeaPage) (d : IdeaData)
    (h : buildData url pg = .ok d) :
    d.title = (scrapeTitle pg).take 150 ∧ d.title.length ≤ 150 ∧
    (pg.ogDescription ≠ [] →
      d.description = pg.ogDescription.take 1000 ∧
      d.description.length ≤ 1000) ∧
    (pg.ogDescription = [] → d.description = scrapeTitle pg) := by
  cases he : extractPrice pg.priceTexts with
  | error e =>
    simp only [buildData, he] at h
    exact Except.noConfusion h
  | ok q =>
    simp only [buildData, he] at h
    injection h with h
    subst h
    refine ⟨rfl, ?_, ?_, ?_⟩
    · simpa using List.length_take_le 150 (scrapeTitle pg)
    · intro hne
      show (if pg.ogDescription = [] then scrapeTitle pg
        else pg.ogDescription.take 1000) = pg.ogDescription.take 1000 ∧
        (if pg.ogDescription = [] then scrapeTitle pg
        else pg.ogDescription.take 1000).length ≤ 1000
      rw [if_neg hne]
      exact ⟨rfl, by simpa using List.length_take_le 1000 pg.ogDescription⟩
    · intro heq
      show (if pg.ogDescription = [] then scrapeTitle pg
        else pg.ogDescription.take 1000) = scrapeTitle pg
      rw [if_pos heq]

/-- Witness for C10(amended): the record built from plainPage (title T,
no preview description) has title T and description equal to the title. -/
theorem truncation_amended_witness :
    wPlainData.title = (scrapeTitle plainPage).take 150 ∧
    wPlainData.title.length ≤ 150 ∧
    (plainPage.ogDescription ≠ [] →
      wPlainData.description = plainPage.ogDescription.take 1000 ∧
      wPlainData.description.length ≤ 1000) ∧
    (plainPage.ogDescription = [] →
      wPlainData.description = scrapeTitle plainPage) :=
  truncation_amended ("u".toList) plainPage wPlainData (by decide)

set_option maxRecDepth 8000 in
/-- C10(counterexample): a page with a 1001-character title and no
social-preview description yields a record whose description is 1001
characters long — the description is not truncated to 1000 in the
fallback case, refuting the claim's unconditional 1000-character bound. -/
theorem truncation_counterexample :
    (buildData ("u".toList) longTitlePage).map
      (fun d => (d.title.length, d.description.length)) = .ok (150, 1001) ∧
    ¬ ((1001 : Nat) ≤ 1000) := ⟨by decide, by decide⟩
